import Mathlib

/-!
Shallow embedding of the gomail SMTP client (pool.go, mail.go) and proofs
about its connection pool, validation, message assembly, envelope ordering,
base64 streaming and rate-limit configuration.
-/

namespace GoMail

/-- A live SMTP session handle (`*smtp.Client`), identified by a numeric id.
`Option Session` models a possibly-nil Go pointer (`none` = nil). -/
abbrev Session := Nat

/-- Model of the Go buffered channel `connections chan *smtp.Client` from
`Pool` in pool.go: a FIFO buffer with a fixed capacity and a closed flag.
Only non-nil clients are ever stored in the buffer by the code, so the
buffer holds `Session` values; the nil zero value received from a closed
empty channel is modelled at the receive operation. -/
structure Chan where
  buf : List Session
  cap : Nat
  closed : Bool
deriving DecidableEq, Repr

/-- Outcome of a Go `select` containing a send case and a `default` branch,
as in `releaseConnection`. A send on a closed channel is selectable and
causes a runtime error (Go run-time: "send on closed channel"), even when a
`default` branch is present; otherwise the send succeeds when the buffer
has room and the `default` branch runs when it is full. -/
inductive SendOutcome where
  | sent (c : Chan)
  | defaulted
  | crashed
deriving DecidableEq, Repr

/-- Go `select { case ch <- s: ... default: ... }` on a buffered channel. -/
def selectSend (c : Chan) (s : Session) : SendOutcome :=
  if c.closed then .crashed
  else if c.buf.length < c.cap then .sent { c with buf := c.buf ++ [s] }
  else .defaulted

/-- Outcome of a Go `select` containing a receive case and a `default`
branch, as in `getConnection`. A receive from a non-empty buffer yields the
oldest element; a receive from a closed empty channel is selectable and
yields the zero value (nil, modelled `none`); otherwise `default` runs. -/
inductive RecvOutcome where
  | received (client : Option Session) (c : Chan)
  | defaulted
deriving DecidableEq, Repr

/-- Go `select { case client := <-ch: ... default: ... }`. -/
def selectRecv (c : Chan) : RecvOutcome :=
  match c.buf with
  | s :: rest => .received (some s) { c with buf := rest }
  | [] => if c.closed then .received none c else .defaulted

/-- The pool of pool.go, reduced to the state the pool logic touches: its
`connections` channel.  (`config` only feeds `createConnection`, which is
abstracted as a factory argument below; `size` is the channel capacity.) -/
structure Pool where
  connections : Chan
deriving DecidableEq, Repr

/-- `defaultPoolSize` from pool.go. -/
def defaultPoolSize : Nat := 10

/-- Observable outcome of `NewPool`: the returned pool (or `none` for an
error return), the sessions `createConnection` successfully opened, in
order, and the sessions `NewPool` itself closed. -/
structure NewPoolTrace where
  result : Option Pool
  opened : List Session
  closedSessions : List Session
deriving DecidableEq, Repr

/-- The initialization loop of `NewPool` (pool.go lines 37-43): for each
`i < size`, run `createConnection` (the factory, `none` = error); on error
return nil and the error immediately; on success do the blocking send
`pool.connections <- client`, which never blocks here because the channel
has capacity `size` and at most `size` sends occur. -/
def newPoolLoop (factory : Nat → Option Session) :
    Nat → Nat → Chan → List Session → NewPoolTrace
  | _, 0, c, opened => { result := some ⟨c⟩, opened := opened, closedSessions := [] }
  | i, n + 1, c, opened =>
    match factory i with
    | none => { result := none, opened := opened, closedSessions := [] }
    | some s => newPoolLoop factory (i + 1) n { c with buf := c.buf ++ [s] } (opened ++ [s])

/-- `NewPool` (pool.go lines 25-46): clamp `size` to `defaultPoolSize` when
`size <= 0`, allocate the channel with the resolved capacity, then run the
initialization loop. -/
def NewPool (factory : Nat → Option Session) (size : Int) : NewPoolTrace :=
  let sz : Nat := if size ≤ 0 then defaultPoolSize else size.toNat
  newPoolLoop factory 0 sz { buf := [], cap := sz, closed := false } []

/-- Which branch `getConnection` took: received an idle client from the
channel, or called `createConnection`. -/
inductive AcquireSource where
  | fromPool
  | fromFactory
deriving DecidableEq, Repr

/-- `getConnection` (pool.go lines 109-123): select-receive with default.
A non-nil received client is returned as is; a nil client (zero value from
a closed drained channel) and the default branch both fall back to
`createConnection`, whose outcome is the `factory` argument
(`none` = error). Returns the client (or `none` on error), the branch
taken, and the pool state afterwards. -/
def getConnection (factory : Option Session) (p : Pool) :
    (Option Session × AcquireSource) × Pool :=
  match selectRecv p.connections with
  | .received (some client) c => ((some client, .fromPool), ⟨c⟩)
  | .received none c => ((factory, .fromFactory), ⟨c⟩)
  | .defaulted => ((factory, .fromFactory), p)

/-- Observable outcome of `releaseConnection`. -/
inductive ReleaseOutcome where
  | noop
  | reinserted (p : Pool)
  | sessionClosed
  | crashed
deriving DecidableEq, Repr

/-- `releaseConnection` (pool.go lines 126-136): nil clients are ignored;
otherwise a select-send with default: reinsert the client when the buffer
has room, close it (`client.Close()`) when the buffer is full.  When the
channel has been closed by `Close`, the send case is still selected and
the send crashes (Go run-time error: send on closed channel). -/
def releaseConnection (p : Pool) (client : Option Session) : ReleaseOutcome :=
  match client with
  | none => .noop
  | some s =>
    match selectSend p.connections s with
    | .sent c => .reinserted ⟨c⟩
    | .defaulted => .sessionClosed
    | .crashed => .crashed

/-- `Close` (pool.go lines 139-153): closes the channel, drains it, and
closes every drained client. Returns the pool state afterwards and the
list of sessions that were closed. -/
def PoolClose (p : Pool) : Pool × List Session :=
  (⟨{ buf := [], cap := p.connections.cap, closed := true }⟩, p.connections.buf)

/-- One pool operation by a caller: an acquire (with the outcome
`createConnection` would have on a pool miss) or a release. -/
inductive PoolOp where
  | acquire (factoryResult : Option Session)
  | release (client : Option Session)
deriving DecidableEq, Repr

/-- State transition of the pool under one operation.  An acquire removes
the head of the buffer if present; a release reinserts the client when
room is available.  Outcomes that do not change the pool state
(factory creation, discarding a client, a nil client) leave it unchanged. -/
def applyOp (p : Pool) : PoolOp → Pool
  | .acquire f => (getConnection f p).2
  | .release client =>
    match releaseConnection p client with
    | .reinserted p' => p'
    | _ => p

/-- Run a sequence of interleaved acquire/release operations. -/
def runOps (p : Pool) (ops : List PoolOp) : Pool := ops.foldl applyOp p

/-! ### Base64 (encoding/base64 StdEncoding, as used by the attachment loops) -/

/-- The standard base64 alphabet of `base64.StdEncoding`. -/
def b64alphabet : List Char :=
  "ABCDEFGHIJKLMNOPQRSTUVWXYZabcdefghijklmnopqrstuvwxyz0123456789+/".data

/-- Character for a 6-bit group. -/
def b64char (n : Nat) : Char := b64alphabet.getD n '?'

/-- 6-bit value of an alphabet character (inverse of `b64char`). -/
def b64val (c : Char) : Nat := b64alphabet.indexOf c

/-- `base64.StdEncoding` encoding of a byte sequence (bytes as naturals
below 256): 3-byte groups become 4 characters; a trailing 1- or 2-byte
group is padded with `=`. This is what `base64.NewEncoder` followed by
`Close` writes for the attachment content. -/
def b64encode : List Nat → List Char
  | [] => []
  | [a] => [b64char (a / 4), b64char (a % 4 * 16), '=', '=']
  | [a, b] => [b64char (a / 4), b64char (a % 4 * 16 + b / 16), b64char (b % 16 * 4), '=']
  | a :: b :: c :: rest =>
    b64char (a / 4) :: b64char (a % 4 * 16 + b / 16) ::
      b64char (b % 16 * 4 + c / 64) :: b64char (c % 64) :: b64encode rest

/-- `base64.StdEncoding` decoding: 4 characters yield 3 bytes, except that
`=` padding in the third or fourth position ends the data with 1 or 2
bytes. -/
def b64decode : List Char → List Nat
  | x :: y :: z :: w :: rest =>
    if z = '=' then [b64val x * 4 + b64val y / 16]
    else if w = '=' then
      [b64val x * 4 + b64val y / 16, b64val y % 16 * 16 + b64val z / 4]
    else
      (b64val x * 4 + b64val y / 16) :: (b64val y % 16 * 16 + b64val z / 4) ::
        (b64val z % 4 * 64 + b64val w) :: b64decode rest
  | _ => []

/-! ### Mail (mail.go) -/

/-- The `Mail` structure of mail.go, restricted to the fields the send
path reads.  `Attachments map[string][]byte` is modelled as an association
list (one entry per filename; Go map iteration order is abstracted as the
list order); a streaming attachment `AttachmentReader` is its name and the
byte sequence its `Reader` yields; `rateLimiter *time.Ticker` is `none` or
the tick interval in nanoseconds; `ContentType` is a string. -/
structure Mail where
  From : String
  Name : String
  Host : String
  Port : String
  User : String
  Pass : String
  Subject : String
  Content : String
  To : List String
  Cc : List String
  Bcc : List String
  Attachments : List (String × List Nat)
  streamAttachments : List (String × List Nat)
  ContentType : String
  rateLimiter : Option Int
  poolSize : Int
deriving DecidableEq, Repr

/-- `SetContentType` (mail.go lines 383-386): stores the content type. -/
def SetContentType (m : Mail) (contentType : String) : Mail :=
  { m with ContentType := contentType }

/-- Character class `[a-zA-Z0-9._%+-]` of the local part. -/
def localChar (c : Char) : Bool :=
  c.isAlpha || c.isDigit || c = '.' || c = '_' || c = '%' || c = '+' || c = '-'

/-- Character class `[a-zA-Z0-9.-]` of the domain part. -/
def domainChar (c : Char) : Bool :=
  c.isAlpha || c.isDigit || c = '.' || c = '-'

/-- Match of `[a-zA-Z0-9.-]+\.[a-zA-Z]{2,}` against a character list:
some position `i` holds a dot with a non-empty `domainChar` prefix before
it and at least two alphabetic characters after it. -/
def domainMatch (ds : List Char) : Bool :=
  (List.range ds.length).any fun i =>
    0 < i && ds.getD i ' ' = '.' && (ds.take i).all domainChar &&
      2 ≤ (ds.drop (i + 1)).length && (ds.drop (i + 1)).all Char.isAlpha

/-- `isEmailValid` (mail.go lines 313-316): whether the anchored regular
expression `^[a-zA-Z0-9._%+-]+@[a-zA-Z0-9.-]+\.[a-zA-Z]{2,}$` matches the
whole string, expressed as the existence of an `@` position splitting the
string into a non-empty `localChar` part and a `domainMatch` part.  (`@`
belongs to neither class, so the split position is forced.) -/
def isEmailValid (email : String) : Bool :=
  let cs := email.data
  (List.range cs.length).any fun i =>
    cs.getD i ' ' = '@' && 0 < i && (cs.take i).all localChar &&
      domainMatch (cs.drop (i + 1))

/-- `validate` (mail.go lines 271-310): all required fields non-empty, at
least one `To` recipient, and every address in `From`, `To`, `Cc`, `Bcc`
passes `isEmailValid`.  (The code's early returns produce exactly this
conjunction.) -/
def validate (m : Mail) : Bool :=
  !(m.From == "" || m.Name == "" || m.Host == "" || m.Port == "" ||
      m.User == "" || m.Pass == "" || m.Subject == "" || m.Content == "" ||
      m.To.isEmpty) &&
    isEmailValid m.From &&
    m.To.all isEmailValid && m.Cc.all isEmailValid && m.Bcc.all isEmailValid

/-! ### MIME message assembly (mail.go lines 198-265) -/

/-- One MIME part as produced by `writer.CreatePart`: the header fields the
code sets and the (transfer-encoded) payload that is written into it. -/
structure MimePart where
  contentType : String
  transferEncoding : Option String
  disposition : Option String
  body : List Char
deriving DecidableEq, Repr

/-- The body part (mail.go lines 221-229): fixed header
`Content-Type: text/html; charset=UTF-8`, raw `m.Content` payload. -/
def contentPart (m : Mail) : MimePart :=
  { contentType := "text/html; charset=UTF-8"
    transferEncoding := none
    disposition := none
    body := m.Content.data }

/-- One attachment part (mail.go lines 232-247 and 250-265): fixed
`application/octet-stream` type, base64 transfer encoding, attachment
disposition carrying the filename, and the base64-encoded content written
through `base64.NewEncoder`. -/
def attachmentPart (name : String) (data : List Nat) : MimePart :=
  { contentType := "application/octet-stream"
    transferEncoding := some "base64"
    disposition := some ("attachment; filename=\"" ++ name ++ "\"")
    body := b64encode data }

/-- The in-memory attachment loop (mail.go lines 232-247). -/
def attachmentParts : List (String × List Nat) → List MimePart
  | [] => []
  | (name, data) :: rest => attachmentPart name data :: attachmentParts rest

/-- The sequence of MIME parts the send path writes after the top-level
headers: the body part, then one part per in-memory attachment, then one
part per streaming attachment (mail.go lines 221-265). -/
def writeParts (m : Mail) : List MimePart :=
  contentPart m :: (attachmentParts m.Attachments ++ attachmentParts m.streamAttachments)

/-- The media type of a `Content-Type` value (the part before `;`). -/
def mediaType (contentType : String) : String :=
  String.mk (contentType.data.takeWhile fun c => c ≠ ';')

/-- Modelled from the spec: the body part's content type is `text/html`
or, when one has been configured via `SetContentType`, the configured
`ContentType`.  Stated for comparison with what `writeParts` produces. -/
def specBodyContentType (m : Mail) : String :=
  if m.ContentType == "" then "text/html" else m.ContentType

/-! ### The send path (mail.go lines 153-268) -/

/-- Network activity observable during `send`: pool construction (which
dials), taking a connection from the pool, and the SMTP commands. -/
inductive SMTPEvent where
  | poolCreated
  | connAcquired
  | mailFrom (addr : String)
  | rcptTo (addr : String)
  | dataOpened
  | messageWritten
deriving DecidableEq, Repr

/-- The SMTP server's replies, one decision per command. -/
structure Server where
  acceptFrom : String → Bool
  acceptRcpt : String → Bool
  acceptData : Bool

/-- The recipient loop (mail.go lines 184-189): one `client.Rcpt` per
recipient in list order; the first rejection returns its error at once.
Yields whether all recipients were accepted and the `rcptTo` events
issued. -/
def rcptLoop (srv : Server) : List String → Bool × List SMTPEvent
  | [] => (true, [])
  | r :: rest =>
    if srv.acceptRcpt r then
      let t := rcptLoop srv rest
      (t.1, .rcptTo r :: t.2)
    else (false, [.rcptTo r])

/-- `send` (mail.go lines 153-268) as result plus network-event trace.
Failed validation returns `errors.New("missing parameter")` before any
network activity.  `hasPool` models `m.pool != nil`; a missing pool is
built by `NewPool` (success abstracted as `poolOk`); `connOk` models the
outcome of `getConnection`.  Then the envelope: `client.Mail(m.From)`,
one `client.Rcpt` per recipient of `append(append(m.To, m.Cc...),
m.Bcc...)`, `client.Data()`, and the message write. -/
def send (m : Mail) (srv : Server) (hasPool poolOk connOk : Bool) :
    Except String Unit × List SMTPEvent :=
  if !validate m then (.error "missing parameter", [])
  else
    let poolEvs : List SMTPEvent := if hasPool then [] else [.poolCreated]
    if !hasPool && !poolOk then (.error "error creating pool", poolEvs)
    else if !connOk then (.error "connection error", poolEvs)
    else
      let evs := poolEvs ++ [.connAcquired, .mailFrom m.From]
      if !srv.acceptFrom m.From then (.error "MAIL FROM rejected", evs)
      else
        let t := rcptLoop srv (m.To ++ m.Cc ++ m.Bcc)
        if !t.1 then (.error "RCPT rejected", evs ++ t.2)
        else
          let evs2 := evs ++ t.2 ++ [.dataOpened]
          if !srv.acceptData then (.error "DATA rejected", evs2)
          else (.ok (), evs2 ++ [.messageWritten])

/-! ### Rate limiting (mail.go lines 356-374) -/

/-- A Go run-time error reachable from `SetRateLimit`. -/
inductive GoError where
  | divByZero
  | nonPositiveTicker
deriving DecidableEq, Repr

/-- `RateLimit` (mail.go lines 357-360). -/
structure RateLimit where
  Enabled : Bool
  PerSecond : Int
deriving DecidableEq, Repr

/-- `time.Second` in nanoseconds (`time.Duration` is an integer
nanosecond count). -/
def timeSecond : Int := 1000000000

/-- Go integer division: truncated toward zero; a zero divisor is a
run-time error ("integer divide by zero"). -/
def goDiv (a b : Int) : Except GoError Int :=
  if b = 0 then .error .divByZero else .ok (Int.tdiv a b)

/-- `time.NewTicker`: a run-time error for a non-positive interval
("non-positive interval for NewTicker"), otherwise a ticker with that
interval. -/
def newTicker (interval : Int) : Except GoError Int :=
  if interval ≤ 0 then .error .nonPositiveTicker else .ok interval

/-- `SetRateLimit` (mail.go lines 363-374): for a non-nil, enabled limit,
derive `interval := time.Second / time.Duration(limit.PerSecond)` and
install `time.NewTicker(interval)`; otherwise stop and clear any existing
limiter. -/
def SetRateLimit (m : Mail) (limit : Option RateLimit) : Except GoError Mail :=
  match limit with
  | some l =>
    if l.Enabled then
      match goDiv timeSecond l.PerSecond with
      | .error e => .error e
      | .ok interval =>
        match newTicker interval with
        | .error e => .error e
        | .ok i => .ok { m with rateLimiter := some i }
    else .ok { m with rateLimiter := none }
  | none => .ok { m with rateLimiter := none }

/-! ### Helper lemmas -/

/-- When every `createConnection` call succeeds, the initialization loop
returns a pool whose channel keeps the capacity it was allocated with. -/
theorem newPoolLoop_ok (factory : Nat → Option Session)
    (hf : ∀ i, (factory i).isSome = true) :
    ∀ (n i : Nat) (c : Chan) (opened : List Session),
      ∃ p, (newPoolLoop factory i n c opened).result = some p ∧
        p.connections.cap = c.cap := by
  intro n
  induction n with
  | zero => intro i c opened; exact ⟨⟨c⟩, rfl, rfl⟩
  | succ n ih =>
    intro i c opened
    obtain ⟨s, hs⟩ := Option.isSome_iff_exists.mp (hf i)
    obtain ⟨p, hp, hcap⟩ := ih (i + 1) { c with buf := c.buf ++ [s] } (opened ++ [s])
    exact ⟨p, by simp [newPoolLoop, hs, hp], hcap⟩

/-- Capacity of the pool a `NewPool` call returned (0 on an error return). -/
def resultCap (t : NewPoolTrace) : Nat :=
  match t.result with
  | some p => p.connections.cap
  | none => 0

/-- A concrete `Mail` value (zero value of the struct) used by witnesses. -/
def mailW : Mail :=
  { From := "", Name := "", Host := "", Port := "", User := "", Pass := ""
    Subject := "", Content := "", To := [], Cc := [], Bcc := []
    Attachments := [], streamAttachments := [], ContentType := ""
    rateLimiter := none, poolSize := 0 }

/-! ### Claims -/

/-- C8: for every requested pool size ≤ 0, pool creation resolves the
capacity to the default of 10; for every positive requested size the
capacity equals the requested size (pool.go lines 25-34, with all session
creations succeeding so that a pool is returned at all). -/
theorem newPool_capacity (factory : Nat → Option Session) (size : Int)
    (hf : ∀ i, (factory i).isSome = true) :
    (NewPool factory size).result.isSome = true ∧
    (size ≤ 0 → resultCap (NewPool factory size) = 10) ∧
    (0 < size → (resultCap (NewPool factory size) : Int) = size) := by
  obtain ⟨p, hp, hcap⟩ := newPoolLoop_ok factory hf
    (if size ≤ 0 then defaultPoolSize else size.toNat) 0
    { buf := [], cap := if size ≤ 0 then defaultPoolSize else size.toNat, closed := false } []
  have hp' : (NewPool factory size).result = some p := hp
  have hcap' : p.connections.cap = if size ≤ 0 then defaultPoolSize else size.toNat := hcap
  refine ⟨by simp [hp'], ?_, ?_⟩ <;> intro h
  · simp [resultCap, hp', hcap', h, defaultPoolSize]
  · have hns : ¬ size ≤ 0 := not_le.mpr h
    simp only [resultCap, hp', hcap', if_neg hns]
    exact Int.toNat_of_nonneg (le_of_lt h)

/-- Witness for C8 at sizes -3 and 7. -/
theorem newPool_capacity_witness :
    ((-3 : Int) ≤ 0) ∧ resultCap (NewPool (fun _ => some 1) (-3)) = 10 ∧
    (0 < (7 : Int)) ∧ (resultCap (NewPool (fun _ => some 1) 7) : Int) = 7 :=
  ⟨by decide,
   (newPool_capacity (fun _ => some 1) (-3) (fun _ => rfl)).2.1 (by decide),
   by decide,
   (newPool_capacity (fun _ => some 1) 7 (fun _ => rfl)).2.2 (by decide)⟩

/-- C2: contrary to the claim, releasing a borrowed session after `Close`
has run does not close the session and complete normally: the select-send
in `releaseConnection` (pool.go lines 131-135) hits the closed channel and
crashes with Go's "send on closed channel" run-time error, for every pool
and every non-nil client. -/
theorem releaseAfterClose_crashes (p : Pool) (s : Session) :
    releaseConnection (PoolClose p).1 (some s) = .crashed := rfl

/-- C4: acquisition is non-blocking and never fails from exhaustion: with
an idle session buffered, `getConnection` removes and returns it (without
consulting the factory); with an empty inventory it returns whatever the
connection factory produced, leaving the pool unchanged
(pool.go lines 109-123). -/
theorem getConnection_nonblocking (p : Pool) (factory : Option Session) :
    (∀ s rest, p.connections.buf = s :: rest →
      getConnection factory p =
        ((some s, .fromPool), ⟨{ p.connections with buf := rest }⟩)) ∧
    (p.connections.buf = [] →
      getConnection factory p = ((factory, .fromFactory), p)) := by
  constructor
  · intro s rest h
    simp [getConnection, selectRecv, h]
  · intro h
    unfold getConnection selectRecv
    rw [h]
    by_cases hc : p.connections.closed <;> simp [hc]

/-- Witness for C4: a pool with idle sessions `[5, 6]` and an empty pool. -/
theorem getConnection_nonblocking_witness :
    (Pool.mk ⟨[5, 6], 3, false⟩).connections.buf = 5 :: [6] ∧
    getConnection (some 9) ⟨⟨[5, 6], 3, false⟩⟩ = ((some 5, .fromPool), ⟨⟨[6], 3, false⟩⟩) ∧
    (Pool.mk ⟨[], 3, false⟩).connections.buf = [] ∧
    getConnection (some 9) ⟨⟨[], 3, false⟩⟩ = ((some 9, .fromFactory), ⟨⟨[], 3, false⟩⟩) :=
  ⟨rfl, (getConnection_nonblocking ⟨⟨[5, 6], 3, false⟩⟩ (some 9)).1 5 [6] rfl,
   rfl, (getConnection_nonblocking ⟨⟨[], 3, false⟩⟩ (some 9)).2 rfl⟩

/-- C10: `SetRateLimit` with an enabled limit derives the tick interval by
integer division without guarding the rate: at `PerSecond = 0` the
derivation is a division by zero (a Go run-time error), and whenever a
limiter is actually installed the rate satisfied `1 ≤ PerSecond`
(mail.go lines 363-374). -/
theorem setRateLimit_division_hazard (m : Mail) :
    SetRateLimit m (some { Enabled := true, PerSecond := 0 }) = .error .divByZero ∧
    (∀ (limit : RateLimit) (m' : Mail), limit.Enabled = true →
      SetRateLimit m (some limit) = .ok m' → 1 ≤ limit.PerSecond) := by
  refine ⟨rfl, ?_⟩
  intro limit m' he hok
  by_contra hlt
  have hle : limit.PerSecond ≤ 0 := by omega
  rcases eq_or_lt_of_le hle with heq | hneg
  · simp [SetRateLimit, he, goDiv, heq] at hok
  · have hz : limit.PerSecond ≠ 0 := ne_of_lt hneg
    have htd : Int.tdiv timeSecond limit.PerSecond ≤ 0 :=
      Int.tdiv_nonpos (by decide) hle
    simp [SetRateLimit, he, goDiv, hz, newTicker, htd] at hok

/-- Witness for C10: an enabled limit of 5 per second installs a ticker
with a 200ms interval, and the theorem recovers `1 ≤ 5`. -/
theorem setRateLimit_division_hazard_witness :
    SetRateLimit mailW (some { Enabled := true, PerSecond := 0 }) = .error .divByZero ∧
    (1 : Int) ≤ 5 :=
  ⟨(setRateLimit_division_hazard mailW).1,
   (setRateLimit_division_hazard mailW).2 { Enabled := true, PerSecond := 5 }
     { mailW with rateLimiter := some 200000000 } rfl rfl⟩

/-- One pool operation neither grows the buffer beyond capacity nor
changes the capacity. -/
theorem applyOp_capacity (p : Pool) (op : PoolOp)
    (h : p.connections.buf.length ≤ p.connections.cap) :
    (applyOp p op).connections.buf.length ≤ (applyOp p op).connections.cap ∧
    (applyOp p op).connections.cap = p.connections.cap := by
  cases op with
  | acquire f =>
    unfold applyOp getConnection selectRecv
    cases hb : p.connections.buf with
    | nil =>
      by_cases hc : p.connections.closed <;> simp [hc, hb]
    | cons s rest =>
      simp [hb] at h ⊢
      omega
  | release client =>
    unfold applyOp releaseConnection selectSend
    cases client with
    | none => exact ⟨h, rfl⟩
    | some s =>
      by_cases hc : p.connections.closed
      · simp [hc]
        exact h
      · by_cases hlen : p.connections.buf.length < p.connections.cap
        · simp [hc, hlen]
          omega
        · simp [hc, hlen]
          exact h

/-- A whole operation sequence preserves the buffer-within-capacity bound
and the capacity itself. -/
theorem runOps_capacity :
    ∀ (ops : List PoolOp) (p : Pool),
      p.connections.buf.length ≤ p.connections.cap →
      (runOps p ops).connections.buf.length ≤ (runOps p ops).connections.cap ∧
      (runOps p ops).connections.cap = p.connections.cap := by
  intro ops
  induction ops with
  | nil => intro p h; exact ⟨h, rfl⟩
  | cons op rest ih =>
    intro p h
    have h1 := applyOp_capacity p op h
    have h2 := ih (applyOp p op) h1.1
    exact ⟨by simpa [runOps] using h2.1, by simpa [runOps] using h2.2.trans h1.2⟩

/-- C3: for a pool of capacity N whose inventory starts within bound, no
interleaving of acquires and releases ever makes the inventory hold more
than N sessions; release reinserts the session as idle exactly when a free
slot exists and closes it otherwise — the only point where the bound is
enforced (pool.go lines 126-136). -/
theorem pool_capacity_invariant (p : Pool) (ops : List PoolOp)
    (h : p.connections.buf.length ≤ p.connections.cap) :
    (runOps p ops).connections.buf.length ≤ p.connections.cap ∧
    (∀ s : Session, p.connections.closed = false →
      (p.connections.buf.length < p.connections.cap →
        releaseConnection p (some s) =
          .reinserted ⟨{ p.connections with buf := p.connections.buf ++ [s] }⟩) ∧
      (¬ p.connections.buf.length < p.connections.cap →
        releaseConnection p (some s) = .sessionClosed)) := by
  obtain ⟨h1, h2⟩ := runOps_capacity ops p h
  refine ⟨h2 ▸ h1, ?_⟩
  intro s hc
  constructor <;> intro hlen <;> simp [releaseConnection, selectSend, hc, hlen]

/-- Witness for C3: capacity 2, a burst of three releases and an acquire
never exceeds two buffered sessions; release inserts into the free slot at
length 1 and closes the client at length 2. -/
theorem pool_capacity_invariant_witness :
    (Pool.mk ⟨[7], 2, false⟩).connections.buf.length ≤ (Pool.mk ⟨[7], 2, false⟩).connections.cap ∧
    (runOps ⟨⟨[7], 2, false⟩⟩
        [.release (some 8), .release (some 9), .acquire none,
         .release (some 4)]).connections.buf.length ≤ 2 ∧
    releaseConnection ⟨⟨[7], 2, false⟩⟩ (some 8) = .reinserted ⟨⟨[7, 8], 2, false⟩⟩ ∧
    releaseConnection ⟨⟨[7, 8], 2, false⟩⟩ (some 9) = .sessionClosed :=
  ⟨by decide,
   (pool_capacity_invariant ⟨⟨[7], 2, false⟩⟩
      [.release (some 8), .release (some 9), .acquire none, .release (some 4)]
      (by decide)).1,
   ((pool_capacity_invariant ⟨⟨[7], 2, false⟩⟩ [] (by decide)).2 8 rfl).1 (by decide),
   ((pool_capacity_invariant ⟨⟨[7, 8], 2, false⟩⟩ [] (by decide)).2 9 rfl).2 (by decide)⟩

/-- If the `k`-th creation (relative to start index `i`) fails after `k`
successes, the initialization loop returns an error with the `k` already
opened sessions recorded and nothing closed. -/
theorem newPoolLoop_fail (factory : Nat → Option Session) :
    ∀ (k n i : Nat) (c : Chan) (acc : List Session), k < n →
      factory (i + k) = none → (∀ j, j < k → (factory (i + j)).isSome = true) →
      newPoolLoop factory i n c acc =
        { result := none
          opened := acc ++ (List.range k).filterMap (fun j => factory (i + j))
          closedSessions := [] } := by
  intro k
  induction k with
  | zero =>
    intro n i c acc hk hfail _
    obtain ⟨n', rfl⟩ := Nat.exists_eq_succ_of_ne_zero (Nat.pos_iff_ne_zero.mp hk)
    simp only [Nat.add_zero] at hfail
    simp [newPoolLoop, hfail]
  | succ k ih =>
    intro n i c acc hk hfail hpre
    obtain ⟨n', rfl⟩ := Nat.exists_eq_succ_of_ne_zero (Nat.pos_iff_ne_zero.mp (Nat.lt_of_le_of_lt (Nat.zero_le _) hk))
    obtain ⟨s, hs⟩ := Option.isSome_iff_exists.mp (hpre 0 (Nat.succ_pos k))
    simp only [Nat.add_zero] at hs
    have hrec := ih n' (i + 1) { c with buf := c.buf ++ [s] } (acc ++ [s])
      (Nat.lt_of_succ_lt_succ hk)
      (by rw [show i + 1 + k = i + (k + 1) by omega]; exact hfail)
      (fun j hj => by
        rw [show i + 1 + j = i + (j + 1) by omega]
        exact hpre (j + 1) (Nat.succ_lt_succ hj))
    simp only [newPoolLoop, hs]
    rw [hrec]
    have hshift : (List.range k).filterMap (fun j => factory (i + 1 + j)) =
        (List.range k).filterMap (fun j => factory (i + (j + 1))) := by
      apply List.filterMap_congr
      intro j _
      rw [show i + 1 + j = i + (j + 1) by omega]
    have hrange : (List.range (k + 1)).filterMap (fun j => factory (i + j)) =
        s :: (List.range k).filterMap (fun j => factory (i + (j + 1))) := by
      rw [List.range_succ_eq_map, List.filterMap_cons]
      simp only [Nat.add_zero, hs, List.filterMap_map]
      rfl
    simp [hshift, hrange]

/-- The factory of the C1 counterexample: the first `createConnection`
succeeds (session 100), every later one fails. -/
def failingFactory : Nat → Option Session :=
  fun i => if i = 0 then some 100 else none

/-- C1 counterexample: creating a pool of size 2 with the second session
creation failing returns an error and retains no pool, but the session
opened before the failure is left open — `NewPool` closes nothing
(pool.go lines 37-43), refuting the no-leak part of the claim. -/
theorem newPool_partial_failure_leak_cex :
    (NewPool failingFactory 2).result = none ∧
    (NewPool failingFactory 2).opened = [100] ∧
    (NewPool failingFactory 2).closedSessions = [] := by decide

/-- C1 (amended): if the `k`-th session creation fails after `k`
successes, `NewPool` returns an error and retains no pool, but the `k`
sessions opened before the failure are not closed — they leak in the
discarded channel (pool.go lines 37-46). -/
theorem newPool_failure_no_cleanup (factory : Nat → Option Session) (size : Int) (k : Nat)
    (hk : k < if size ≤ 0 then defaultPoolSize else size.toNat)
    (hfail : factory k = none) (hpre : ∀ j, j < k → (factory j).isSome = true) :
    (NewPool factory size).result = none ∧
    (NewPool factory size).opened = (List.range k).filterMap factory ∧
    (NewPool factory size).closedSessions = [] := by
  have hloop := newPoolLoop_fail factory k (if size ≤ 0 then defaultPoolSize else size.toNat) 0
    { buf := [], cap := if size ≤ 0 then defaultPoolSize else size.toNat, closed := false } []
    hk (by simpa using hfail) (fun j hj => by simpa using hpre j hj)
  have hloop' : NewPool factory size =
      { result := none
        opened := [] ++ (List.range k).filterMap (fun j => factory (0 + j))
        closedSessions := [] } := hloop
  rw [hloop']
  simp [Nat.zero_add]

/-- Witness for C1 (amended): `failingFactory`, size 2, failure at index 1
after one success; the single opened session is the leaked one. -/
theorem newPool_failure_no_cleanup_witness :
    (1 < if (2 : Int) ≤ 0 then defaultPoolSize else (2 : Int).toNat) ∧
    failingFactory 1 = none ∧
    (NewPool failingFactory 2).result = none ∧
    (NewPool failingFactory 2).opened = (List.range 1).filterMap failingFactory ∧
    (NewPool failingFactory 2).closedSessions = [] :=
  ⟨by decide, rfl,
   (newPool_failure_no_cleanup failingFactory 2 1 (by decide) rfl (by decide)).1,
   (newPool_failure_no_cleanup failingFactory 2 1 (by decide) rfl (by decide)).2.1,
   (newPool_failure_no_cleanup failingFactory 2 1 (by decide) rfl (by decide)).2.2⟩

/-- C5: a missing required field (sender, sender name, host, port, user,
password, subject, body, at least one recipient) or an address in From,
To, Cc or Bcc failing the syntax check makes `send` return the
"missing parameter" error with no network activity at all: no pool
creation, no connection, no SMTP command (mail.go lines 153-156,
271-310). -/
theorem invalid_mail_no_network (m : Mail) (srv : Server) (hasPool poolOk connOk : Bool)
    (h : m.From = "" ∨ m.Name = "" ∨ m.Host = "" ∨ m.Port = "" ∨ m.User = "" ∨
      m.Pass = "" ∨ m.Subject = "" ∨ m.Content = "" ∨ m.To = [] ∨
      isEmailValid m.From = false ∨ (∃ a ∈ m.To, isEmailValid a = false) ∨
      (∃ a ∈ m.Cc, isEmailValid a = false) ∨ (∃ a ∈ m.Bcc, isEmailValid a = false)) :
    send m srv hasPool poolOk connOk = (.error "missing parameter", []) := by
  have hv : validate m = false := by
    unfold validate
    rcases h with h|h|h|h|h|h|h|h|h|h|h|h|h
    · simp [h]
    · simp [h]
    · simp [h]
    · simp [h]
    · simp [h]
    · simp [h]
    · simp [h]
    · simp [h]
    · simp [h]
    · simp [h]
    · have hall : m.To.all isEmailValid = false := by
        obtain ⟨a, ha, hf⟩ := h
        rw [List.all_eq_false]
        exact ⟨a, ha, by simp [hf]⟩
      simp [hall]
    · have hall : m.Cc.all isEmailValid = false := by
        obtain ⟨a, ha, hf⟩ := h
        rw [List.all_eq_false]
        exact ⟨a, ha, by simp [hf]⟩
      simp [hall]
    · have hall : m.Bcc.all isEmailValid = false := by
        obtain ⟨a, ha, hf⟩ := h
        rw [List.all_eq_false]
        exact ⟨a, ha, by simp [hf]⟩
      simp [hall]
  simp [send, hv]

/-- The mail of the C5 witness: all fields filled and well-formed except
for the syntactically invalid recipient. -/
def mailC5 : Mail :=
  { mailW with
    From := "a@x.com"
    Name := "A"
    Host := "smtp.x.com"
    Port := "587"
    User := "u"
    Pass := "p"
    Subject := "S"
    Content := "C"
    To := ["invalid.recipient"] }

/-- A server accepting everything, for witnesses. -/
def srvAll : Server :=
  { acceptFrom := fun _ => true, acceptRcpt := fun _ => true, acceptData := true }

/-- Witness for C5: the invalid recipient `"invalid.recipient"` yields the
validation error and an empty network trace. -/
theorem invalid_mail_no_network_witness :
    isEmailValid "invalid.recipient" = false ∧
    send mailC5 srvAll true true true = (.error "missing parameter", []) :=
  ⟨by decide, invalid_mail_no_network mailC5 srvAll true true true (by decide)⟩

/-- When all recipients are accepted the loop issues one RCPT per
recipient, in list order. -/
theorem rcptLoop_all_accepted (srv : Server) :
    ∀ rs : List String, rs.all srv.acceptRcpt = true →
      rcptLoop srv rs = (true, rs.map SMTPEvent.rcptTo) := by
  intro rs
  induction rs with
  | nil => intro _; rfl
  | cons r rest ih =>
    intro h
    simp only [List.all_cons, Bool.and_eq_true] at h
    simp [rcptLoop, h.1, ih h.2]

/-- The first rejected recipient stops the loop: the events are the
accepted prefix plus the rejected RCPT itself. -/
theorem rcptLoop_first_reject (srv : Server) :
    ∀ (pre : List String) (bad : String) (post : List String),
      pre.all srv.acceptRcpt = true → srv.acceptRcpt bad = false →
      rcptLoop srv (pre ++ bad :: post) =
        (false, pre.map SMTPEvent.rcptTo ++ [.rcptTo bad]) := by
  intro pre
  induction pre with
  | nil =>
    intro bad post _ hb
    simp [rcptLoop, hb]
  | cons r rest ih =>
    intro bad post h hb
    simp only [List.all_cons, Bool.and_eq_true] at h
    simp [rcptLoop, h.1, ih bad post h.2 hb]

/-- C7: a valid send declares the envelope sender first, then issues one
RCPT per recipient in the fixed order To, then Cc, then Bcc; when all are
accepted the data phase follows, and the first rejected RCPT aborts the
transaction with an error right after its own event
(mail.go lines 180-189). -/
theorem envelope_order (m : Mail) (srv : Server) (hasPool poolOk connOk : Bool)
    (hv : validate m = true) (hpool : (!hasPool && !poolOk) = false)
    (hconn : connOk = true) (hfrom : srv.acceptFrom m.From = true) :
    ((m.To ++ m.Cc ++ m.Bcc).all srv.acceptRcpt = true →
      (send m srv hasPool poolOk connOk).2 =
        (if hasPool then [] else [SMTPEvent.poolCreated]) ++
          [SMTPEvent.connAcquired, SMTPEvent.mailFrom m.From] ++
          (m.To ++ m.Cc ++ m.Bcc).map SMTPEvent.rcptTo ++ [SMTPEvent.dataOpened] ++
          (if srv.acceptData then [SMTPEvent.messageWritten] else [])) ∧
    (∀ pre bad post, m.To ++ m.Cc ++ m.Bcc = pre ++ bad :: post →
      pre.all srv.acceptRcpt = true → srv.acceptRcpt bad = false →
      (send m srv hasPool poolOk connOk).1 = .error "RCPT rejected" ∧
      (send m srv hasPool poolOk connOk).2 =
        (if hasPool then [] else [SMTPEvent.poolCreated]) ++
          [SMTPEvent.connAcquired, SMTPEvent.mailFrom m.From] ++
          pre.map SMTPEvent.rcptTo ++ [SMTPEvent.rcptTo bad]) := by
  constructor
  · intro hall
    rw [send]
    simp only [hv, Bool.not_true, Bool.false_eq_true, if_false, hpool, hconn,
      Bool.not_false, if_true, hfrom, rcptLoop_all_accepted srv _ hall]
    by_cases hd : srv.acceptData <;> simp [hd]
  · intro pre bad post hsplit hpre hbad
    rw [send]
    simp only [hv, Bool.not_true, Bool.false_eq_true, if_false, hpool, hconn,
      Bool.not_false, if_true, hfrom, hsplit, rcptLoop_first_reject srv pre bad post hpre hbad]
    simp

/-- The valid mail of the C7 witness. -/
def mailC7 : Mail :=
  { mailW with
    From := "a@x.com"
    Name := "A"
    Host := "smtp.x.com"
    Port := "587"
    User := "u"
    Pass := "p"
    Subject := "S"
    Content := "C"
    To := ["b@x.com", "bad@x.com"] }

/-- A server rejecting exactly the recipient `bad@x.com`. -/
def srvRej : Server :=
  { acceptFrom := fun _ => true
    acceptRcpt := fun a => !(a == "bad@x.com")
    acceptData := true }

/-- Witness for C7: with every recipient accepted the trace is MAIL FROM
then both RCPTs in order then DATA; with the second recipient rejected
the trace stops right after its RCPT and the send errors. -/
theorem envelope_order_witness :
    validate mailC7 = true ∧
    (send mailC7 srvAll true true true).2 =
      [SMTPEvent.connAcquired, SMTPEvent.mailFrom "a@x.com",
       SMTPEvent.rcptTo "b@x.com", SMTPEvent.rcptTo "bad@x.com",
       SMTPEvent.dataOpened, SMTPEvent.messageWritten] ∧
    (send mailC7 srvRej true true true).1 = Except.error "RCPT rejected" ∧
    (send mailC7 srvRej true true true).2 =
      [SMTPEvent.connAcquired, SMTPEvent.mailFrom "a@x.com",
       SMTPEvent.rcptTo "b@x.com", SMTPEvent.rcptTo "bad@x.com"] :=
  ⟨by decide,
   (envelope_order mailC7 srvAll true true true (by decide) rfl rfl rfl).1 (by decide),
   ((envelope_order mailC7 srvRej true true true (by decide) rfl rfl rfl).2
     ["b@x.com"] "bad@x.com" [] rfl (by decide) (by decide)).1,
   ((envelope_order mailC7 srvRej true true true (by decide) rfl rfl rfl).2
     ["b@x.com"] "bad@x.com" [] rfl (by decide) (by decide)).2⟩

/-- The attachment loops emit one part per attachment. -/
theorem attachmentParts_length :
    ∀ l : List (String × List Nat), (attachmentParts l).length = l.length := by
  intro l
  induction l with
  | nil => rfl
  | cons a rest ih =>
    cases a
    simp [attachmentParts, ih]

/-- Every part the attachment loops emit is base64 transfer-encoded. -/
theorem attachmentParts_encoding :
    ∀ (l : List (String × List Nat)) (part : MimePart),
      part ∈ attachmentParts l → part.transferEncoding = some "base64" := by
  intro l
  induction l with
  | nil =>
    intro part hmem
    simp [attachmentParts] at hmem
  | cons a rest ih =>
    intro part hmem
    cases a
    rcases List.mem_cons.mp hmem with h | h
    · rw [h]
      rfl
    · exact ih part h

/-- C6 (amended): the MIME document the send path writes has exactly one
body part — the first part, with the hardcoded Content-Type
`text/html; charset=UTF-8` — followed by one base64-encoded part per
in-memory attachment and one per streaming attachment
(mail.go lines 221-265). -/
theorem message_parts_structure (m : Mail) :
    (writeParts m).length = 1 + m.Attachments.length + m.streamAttachments.length ∧
    (writeParts m).head? = some (contentPart m) ∧
    (contentPart m).contentType = "text/html; charset=UTF-8" ∧
    ((writeParts m).filter fun part => part.transferEncoding == none).length = 1 ∧
    (∀ part ∈ (writeParts m).tail, part.transferEncoding = some "base64") := by
  have htail : ∀ part ∈ attachmentParts m.Attachments ++ attachmentParts m.streamAttachments,
      part.transferEncoding = some "base64" := by
    intro part hmem
    rcases List.mem_append.mp hmem with h | h
    · exact attachmentParts_encoding _ part h
    · exact attachmentParts_encoding _ part h
  refine ⟨?_, rfl, rfl, ?_, ?_⟩
  · simp [writeParts, attachmentParts_length]
    omega
  · have hnil : (attachmentParts m.Attachments ++
        attachmentParts m.streamAttachments).filter
          (fun part => part.transferEncoding == none) = [] := by
      rw [List.filter_eq_nil_iff]
      intro part hmem
      simp [htail part hmem]
    simp [writeParts, List.filter, hnil, contentPart]
  · intro part hmem
    exact htail part (by simpa [writeParts] using hmem)

/-- Mail with one in-memory and one streaming attachment, for the C6
witness. -/
def mailC6 : Mail :=
  { mailW with
    Content := "C"
    Attachments := [("a.txt", [104])]
    streamAttachments := [("s.bin", [105, 106])] }

/-- Witness for C6 (amended) on `mailC6`. -/
theorem message_parts_structure_witness :
    (writeParts mailC6).length = 1 + 1 + 1 ∧
    ((writeParts mailC6).filter fun part => part.transferEncoding == none).length = 1 ∧
    attachmentPart "a.txt" [104] ∈ (writeParts mailC6).tail ∧
    (attachmentPart "a.txt" [104]).transferEncoding = some "base64" :=
  ⟨(message_parts_structure mailC6).1,
   (message_parts_structure mailC6).2.2.2.1,
   by decide,
   (message_parts_structure mailC6).2.2.2.2 (attachmentPart "a.txt" [104]) (by decide)⟩

/-- A mail whose content type was configured to `text/plain` through
`SetContentType`, for the C6 counterexample. -/
def mailPlain : Mail := SetContentType mailW "text/plain"

/-- C6 counterexample: configuring `text/plain` via `SetContentType` does
not change the body part: `send` hardcodes `text/html; charset=UTF-8`
(mail.go lines 221-223), so the part's media type differs from the
configured content type the claim promises. -/
theorem contentType_ignored_cex :
    mailPlain.ContentType = "text/plain" ∧
    specBodyContentType mailPlain = "text/plain" ∧
    ((writeParts mailPlain).head?.map
      fun part => mediaType part.contentType) = some "text/html" ∧
    ¬ ((writeParts mailPlain).head?.map
        fun part => mediaType part.contentType) =
      some (specBodyContentType mailPlain) := by
  decide

/-- `b64val` inverts `b64char` on 6-bit values. -/
theorem b64val_b64char : ∀ n < 64, b64val (b64char n) = n := by decide

/-- No 6-bit value encodes to the padding character. -/
theorem b64char_ne_pad : ∀ n < 64, b64char n ≠ '=' := by decide

/-- Base64 decoding inverts base64 encoding on every byte sequence. -/
theorem b64_roundtrip : ∀ bs : List Nat, (∀ x ∈ bs, x < 256) →
    b64decode (b64encode bs) = bs
  | [], _ => rfl
  | [a], h => by
    have ha : a < 256 := h a (by simp)
    have h1 : a / 4 < 64 := by omega
    have h2 : a % 4 * 16 < 64 := by omega
    simp only [b64encode, b64decode, if_pos rfl, b64val_b64char _ h1, b64val_b64char _ h2]
    have : a / 4 * 4 + a % 4 * 16 / 16 = a := by omega
    rw [this]
    simp
  | [a, b], h => by
    have ha : a < 256 := h a (by simp)
    have hb : b < 256 := h b (by simp)
    have h1 : a / 4 < 64 := by omega
    have h2 : a % 4 * 16 + b / 16 < 64 := by omega
    have h3 : b % 16 * 4 < 64 := by omega
    simp only [b64encode, b64decode, if_neg (b64char_ne_pad _ h3), if_pos rfl,
      b64val_b64char _ h1, b64val_b64char _ h2, b64val_b64char _ h3]
    have e1 : a / 4 * 4 + (a % 4 * 16 + b / 16) / 16 = a := by omega
    have e2 : (a % 4 * 16 + b / 16) % 16 * 16 + b % 16 * 4 / 4 = b := by omega
    rw [e1, e2]
    simp
  | a :: b :: c :: rest, h => by
    have ha : a < 256 := h a (by simp)
    have hb : b < 256 := h b (by simp)
    have hc : c < 256 := h c (by simp)
    have h1 : a / 4 < 64 := by omega
    have h2 : a % 4 * 16 + b / 16 < 64 := by omega
    have h3 : b % 16 * 4 + c / 64 < 64 := by omega
    have h4 : c % 64 < 64 := by omega
    have ih := b64_roundtrip rest (fun x hx => h x (by simp [hx]))
    simp only [b64encode, b64decode, if_neg (b64char_ne_pad _ h3),
      if_neg (b64char_ne_pad _ h4), b64val_b64char _ h1, b64val_b64char _ h2,
      b64val_b64char _ h3, b64val_b64char _ h4, ih]
    have e1 : a / 4 * 4 + (a % 4 * 16 + b / 16) / 16 = a := by omega
    have e2 : (a % 4 * 16 + b / 16) % 16 * 16 + (b % 16 * 4 + c / 64) / 4 = b := by omega
    have e3 : (b % 16 * 4 + c / 64) % 4 * 64 + c % 64 = c := by omega
    rw [e1, e2, e3]

/-- A pair membership maps to a part membership in the attachment loop. -/
theorem mem_attachmentParts :
    ∀ (l : List (String × List Nat)) (name : String) (data : List Nat),
      (name, data) ∈ l → attachmentPart name data ∈ attachmentParts l := by
  intro l
  induction l with
  | nil =>
    intro name data hmem
    simp at hmem
  | cons a rest ih =>
    intro name data hmem
    cases a
    rcases List.mem_cons.mp hmem with heq | hmem'
    · rw [← heq]
      exact List.mem_cons_self _ _
    · exact List.mem_cons_of_mem _ (ih name data hmem')

/-- C9: each streaming attachment contributes a part whose payload is the
base64 encoding of its source bytes, and decoding that payload gives back
exactly the source bytes, whatever their number
(mail.go lines 250-265). -/
theorem stream_attachment_roundtrip (m : Mail) (name : String) (data : List Nat)
    (hmem : (name, data) ∈ m.streamAttachments) (hbytes : ∀ x ∈ data, x < 256) :
    attachmentPart name data ∈ writeParts m ∧
    (attachmentPart name data).body = b64encode data ∧
    b64decode (attachmentPart name data).body = data := by
  refine ⟨?_, rfl, b64_roundtrip data hbytes⟩
  unfold writeParts
  exact List.mem_cons_of_mem _
    (List.mem_append_right _ (mem_attachmentParts _ name data hmem))

/-- Mail with a three-byte streaming attachment, for the C9 witness. -/
def mailC9 : Mail :=
  { mailW with streamAttachments := [("s.bin", [0, 255, 10])] }

/-- Witness for C9: the attachment `s.bin` with bytes `[0, 255, 10]`
round-trips through the emitted base64 part. -/
theorem stream_attachment_roundtrip_witness :
    ("s.bin", [0, 255, 10]) ∈ mailC9.streamAttachments ∧
    attachmentPart "s.bin" [0, 255, 10] ∈ writeParts mailC9 ∧
    b64decode (attachmentPart "s.bin" [0, 255, 10]).body = [0, 255, 10] :=
  ⟨by decide,
   (stream_attachment_roundtrip mailC9 "s.bin" [0, 255, 10] (by decide) (by decide)).1,
   (stream_attachment_roundtrip mailC9 "s.bin" [0, 255, 10] (by decide) (by decide)).2.2⟩

end GoMail
